import Mathlib

set_option maxRecDepth 4000

/-!
Shallow embedding of the ai_travel_agent frontend components
(ChatInput, HealthCheck, AdditionalInfo, FinalResponse): the
sanitization pass `cleanResponse`, the submit handlers as state
transitions, and the outbound request payloads.
-/

/-- Character class of the JavaScript regex escape `\s` (also the set
trimmed by `String.prototype.trim`). -/
def isJSSpace (c : Char) : Bool :=
  c == ' ' || c == '\t' || c == '\n' || c == '\r' || c == '\x0b' || c == '\x0c' ||
  c.toNat == 0xa0 || c.toNat == 0x1680 ||
  (0x2000 ≤ c.toNat && c.toNat ≤ 0x200a) ||
  c.toNat == 0x2028 || c.toNat == 0x2029 || c.toNat == 0x202f ||
  c.toNat == 0x205f || c.toNat == 0x3000 || c.toNat == 0xfeff

/-- ASCII lowering on character codes, modelling the case-insensitive
(`i`) flag of the sanitization regexes. -/
def lowerCode (n : Nat) : Nat := if 65 ≤ n && n ≤ 90 then n + 32 else n

/-- Case-insensitive character comparison. -/
def ciEq (a b : Char) : Bool := lowerCode a.toNat == lowerCode b.toNat

/-- Case-insensitive "the pattern starts the text". -/
def ciStartsWith : List Char → List Char → Bool
  | [], _ => true
  | _ :: _, [] => false
  | p :: ps, c :: cs => ciEq p c && ciStartsWith ps cs

/-- Index of the earliest case-insensitive occurrence of `pat` in the text. -/
def findCiIndex (pat : List Char) : List Char → Option Nat
  | [] => if ciStartsWith pat [] then some 0 else none
  | c :: cs =>
    if ciStartsWith pat (c :: cs) then some 0
    else (findCiIndex pat cs).map (· + 1)

/-- Length of the longest prefix whose characters all satisfy `p`. -/
def countLeading (p : Char → Bool) : List Char → Nat
  | [] => 0
  | c :: cs => if p c then countLeading p cs + 1 else 0

/-- JavaScript `String.prototype.trim` on a character list. -/
def jsTrim (l : List Char) : List Char :=
  ((l.dropWhile isJSSpace).reverse.dropWhile isJSSpace).reverse

/-- JavaScript `String.prototype.trim`. -/
def jsTrimStr (s : String) : String := String.mk (jsTrim s.data)

/-- One global-replace pass of `/<tag>[\s\S]*?<\/tag>/gi` with empty
replacement: at each position try the open tag, the lazy body ends at the
earliest closing tag; if the open tag does not match (or never closes)
emit one character and rescan.  `fuel` bounds the recursion; it is
initialized to the length of the text and each step consumes at least one
character. -/
def removePairedGo (openTag closeTag : List Char) : Nat → List Char → List Char
  | 0, l => l
  | _ + 1, [] => []
  | fuel + 1, c :: cs =>
    if ciStartsWith openTag (c :: cs) then
      match findCiIndex closeTag ((c :: cs).drop openTag.length) with
      | some i =>
        removePairedGo openTag closeTag fuel
          (((c :: cs).drop openTag.length).drop (i + closeTag.length))
      | none => c :: removePairedGo openTag closeTag fuel cs
    else c :: removePairedGo openTag closeTag fuel cs

/-- Global replace of `/<tag>[\s\S]*?<\/tag>/gi` (for a literal `tag`)
with the empty string. -/
def removePaired (tag : List Char) (l : List Char) : List Char :=
  removePairedGo ('<' :: tag ++ ['>']) ('<' :: '/' :: tag ++ ['>']) l.length l

/-- Length matched by the alternation `(search_rag|duckduckgo_search)` at
the head of `l` (case-insensitive; the alternatives are not prefixes of
each other, so first-match order does not matter). -/
def nameAltLen (l : List Char) : Option Nat :=
  if ciStartsWith ("search_rag".data) l then some 10
  else if ciStartsWith ("duckduckgo_search".data) l then some 17
  else none

/-- Remainder of the standalone-tag regex after `<` and an optional `/`:
the tag name, then greedy `[^>]*`, then `>`; the greedy run stops at the
first `>`, which closes the match. -/
def standaloneAfter (slash : Nat) (r : List Char) : Option Nat :=
  match nameAltLen r with
  | some n =>
    match (r.drop n).findIdx? (fun c => c == '>') with
    | some j => some (1 + slash + n + j + 1)
    | none => none
  | none => none

/-- Length matched by `/<\/?(search_rag|duckduckgo_search)[^>]*>/i` at the
head of `l`; the engine tries the optional `/` first, and a tag name never
begins with `/`, so the fallback only matters when the slash attempt fails. -/
def standaloneMatchLen (l : List Char) : Option Nat :=
  match l with
  | c :: rest =>
    if c = '<' then
      if rest.head? = some '/' then
        match standaloneAfter 1 rest.tail with
        | some k => some k
        | none => standaloneAfter 0 rest
      else standaloneAfter 0 rest
    else none
  | [] => none

/-- Global replace of `/<\/?(search_rag|duckduckgo_search)[^>]*>/gi` with
the empty string. -/
def removeStandaloneGo : Nat → List Char → List Char
  | 0, l => l
  | _ + 1, [] => []
  | fuel + 1, c :: cs =>
    match standaloneMatchLen (c :: cs) with
    | some k => removeStandaloneGo fuel ((c :: cs).drop k)
    | none => c :: removeStandaloneGo fuel cs

def removeStandalone (l : List Char) : List Char := removeStandaloneGo l.length l

/-- Backtracking helper for a greedy `\s*` followed by the rest of the
pattern `f`: try consuming `k` whitespace characters for `k = n, …, 0`
and keep the first success, returning the total matched length. -/
def tryLengths (f : List Char → Option Nat) (l : List Char) : Nat → Option Nat
  | 0 => f l
  | k + 1 =>
    match f (l.drop (k + 1)) with
    | some m => some (k + 1 + m)
    | none => tryLengths f l k

/-- Greedy `\s*` followed by `f`. -/
def spacesStarThen (f : List Char → Option Nat) (l : List Char) : Option Nat :=
  tryLengths f l (countLeading isJSSpace l)

/-- Greedy `\n+` (nothing follows it in the pattern, so no backtracking). -/
def nlPlus (l : List Char) : Option Nat :=
  match countLeading (fun c => c == '\n') l with
  | 0 => none
  | k + 1 => some (k + 1)

/-- Matches `\s*\n+`. -/
def partC (l : List Char) : Option Nat := spacesStarThen nlPlus l

/-- Matches `\n\s*\n+`. -/
def partB (l : List Char) : Option Nat :=
  match l with
  | c :: rest => if c = '\n' then (partC rest).map (· + 1) else none
  | [] => none

/-- Matches `\s*\n\s*\n+`. -/
def partA (l : List Char) : Option Nat := spacesStarThen partB l

/-- Length matched by `/\n\s*\n\s*\n+/` at the head of `l`. -/
def matchBlank (l : List Char) : Option Nat :=
  match l with
  | c :: rest => if c = '\n' then (partA rest).map (· + 1) else none
  | [] => none

/-- Global replace of `/\n\s*\n\s*\n+/g` with `"\n\n"`. -/
def collapseGo : Nat → List Char → List Char
  | 0, l => l
  | _ + 1, [] => []
  | fuel + 1, c :: cs =>
    match matchBlank (c :: cs) with
    | some k => '\n' :: '\n' :: collapseGo fuel ((c :: cs).drop k)
    | none => c :: collapseGo fuel cs

def collapseBlank (l : List Char) : List Char := collapseGo l.length l

/-- `cleanResponse` from AdditionalInfo: strip paired `search_rag` then
`duckduckgo_search` tags, strip remaining standalone tags, collapse blank
runs, trim; an empty (falsy) input is returned as is. -/
def cleanResponse (text : String) : String :=
  if text = "" then text
  else
    String.mk (jsTrim (collapseBlank (removeStandalone
      (removePaired ("duckduckgo_search".data)
        (removePaired ("search_rag".data) text.data)))))

/-- Whether three consecutive newline characters occur anywhere in `l`. -/
def hasTripleNL : List Char → Bool
  | a :: b :: c :: rest =>
    (a == '\n' && b == '\n' && c == '\n') || hasTripleNL (b :: c :: rest)
  | _ => false

/-- Response payload of the gather-additional-info endpoint; `none`
models an absent (undefined) JSON field. -/
structure GatherResult where
  success : Option Bool
  query : Option String
  info : Option String
  message : Option String
deriving DecidableEq

/-- What AdditionalInfo.handleSubmit does with a resolved response:
store a (cleaned) result or set an error message. -/
inductive SubmitOutcome where
  | ok : GatherResult → SubmitOutcome
  | err : String → SubmitOutcome
deriving DecidableEq

def emptyResponseMsg : String := "Received empty response from server. Please try again."

/-- Branch of AdditionalInfo.handleSubmit on a resolved response: the
JavaScript truthiness test `data && data.info` (an absent field and the
empty string are both falsy). -/
def processGatherResponse (data : Option GatherResult) : SubmitOutcome :=
  match data with
  | some d =>
    match d.info with
    | some s =>
      if s = "" then .err emptyResponseMsg
      else .ok { d with info := some (cleanResponse s) }
    | none => .err emptyResponseMsg
  | none => .err emptyResponseMsg

/-- Body of an error response, optionally carrying `detail` or `message`. -/
structure ErrData where
  detail : Option String
  message : Option String
deriving DecidableEq

/-- The `response` object of an axios-style request error. -/
structure ErrResponse where
  data : Option ErrData
  status : Nat
  statusText : String
deriving DecidableEq

/-- Shape of an axios-style request error: `response` is present when the
server answered with an error status, `request` is truthy when the request
was sent but no response arrived, and `message` is the error's own text. -/
structure ErrInfo where
  response : Option ErrResponse
  request : Bool
  message : Option String
deriving DecidableEq

/-- JavaScript `a || b` for an optional string `a` (an absent value and
the empty string are falsy). -/
def jsOrStr (a : Option String) (b : String) : String :=
  match a with
  | some s => if s = "" then b else s
  | none => b

def noResponseMsg : String := "No response from server. Please check if the API server is running."

/-- Error-message derivation in AdditionalInfo.handleSubmit's catch block. -/
def additionalInfoErrorMessage (err : ErrInfo) : String :=
  match err.response with
  | some r =>
    jsOrStr (r.data.bind ErrData.detail)
      (jsOrStr (r.data.bind ErrData.message)
        ("Server error: " ++ toString r.status ++ " " ++ r.statusText))
  | none =>
    if err.request then noResponseMsg
    else jsOrStr err.message "Failed to gather information"

/-- Error-message derivation in FinalResponse.handleSubmit's catch block:
`err.response?.data?.detail || err.message || 'Failed to generate response'`. -/
def finalResponseErrorMessage (err : ErrInfo) : String :=
  jsOrStr ((err.response.bind ErrResponse.data).bind ErrData.detail)
    (jsOrStr err.message "Failed to generate response")

/-- Error-message derivation in HealthCheck.checkHealth's catch block. -/
def healthCheckErrorMessage (err : ErrInfo) : String :=
  jsOrStr ((err.response.bind ErrResponse.data).bind ErrData.detail)
    (jsOrStr err.message "Failed to check health")

/-- Result of awaiting an API call: the resolved value (possibly null)
or the thrown error. -/
inductive ApiOutcome (α : Type) where
  | success : Option α → ApiOutcome α
  | failure : ErrInfo → ApiOutcome α
deriving DecidableEq

/-- Local state of the AdditionalInfo component. -/
structure AIState where
  query : String
  result : Option GatherResult
  loading : Bool
  error : Option String
deriving DecidableEq

/-- AdditionalInfo.handleSubmit as a state transition; the awaited call's
outcome is a parameter (unused on the early-validation return, which
issues no request). -/
def additionalInfoSubmit (s : AIState) (o : ApiOutcome GatherResult) : AIState :=
  if jsTrimStr s.query = "" then { s with error := some "Please enter a query" }
  else
    let started : AIState := { s with loading := true, error := none, result := none }
    let settled : AIState :=
      match o with
      | .success data =>
        match processGatherResponse data with
        | .ok r => { started with result := some r }
        | .err m => { started with error := some m }
      | .failure e => { started with error := some (additionalInfoErrorMessage e) }
    { settled with loading := false }

/-- Response payload of the generate-final-response endpoint. -/
structure FinalResult where
  success : Option Bool
  response : Option String
  message : Option String
deriving DecidableEq

/-- Local state of the FinalResponse component. -/
structure FRState where
  content : String
  userQuery : String
  result : Option FinalResult
  loading : Bool
  error : Option String
deriving DecidableEq

/-- Request payload of the generate-final-response endpoint; `user_query`
is `none` when the key is absent from the JSON body (the JavaScript
`userQuery || undefined` is dropped by serialization when undefined). -/
structure FinalPayload where
  content : String
  user_query : Option String
deriving DecidableEq

/-- The outbound FinalResponse request: `none` when validation fails and
no request is issued.  The raw `content` is sent; `user_query` is omitted
exactly when the field is the empty string. -/
def finalResponseRequest (content userQuery : String) : Option FinalPayload :=
  if jsTrimStr content = "" then none
  else some { content := content
              user_query := if userQuery = "" then none else some userQuery }

/-- FinalResponse.handleSubmit as a state transition. -/
def finalResponseSubmitState (s : FRState) (o : ApiOutcome FinalResult) : FRState :=
  if jsTrimStr s.content = "" then { s with error := some "Please enter content to synthesize" }
  else
    let started : FRState := { s with loading := true, error := none, result := none }
    let settled : FRState :=
      match o with
      | .success data => { started with result := data }
      | .failure e => { started with error := some (finalResponseErrorMessage e) }
    { settled with loading := false }

/-- The health payload displayed by HealthCheck. -/
structure HealthData where
  status : String
  message : String
  version : String
deriving DecidableEq

/-- Local state of the HealthCheck component. -/
structure HCState where
  health : Option HealthData
  loading : Bool
  error : Option String
deriving DecidableEq

/-- HealthCheck.checkHealth as a state transition (note: the previous
`health` record is not cleared when a new check starts). -/
def checkHealth (s : HCState) (o : ApiOutcome HealthData) : HCState :=
  let started : HCState := { s with loading := true, error := none }
  let settled : HCState :=
    match o with
    | .success data => { started with health := data }
    | .failure e => { started with error := some (healthCheckErrorMessage e) }
  { settled with loading := false }

/-- ChatInput.handleSubmit: the dispatched message (if any) and the new
field value. -/
def chatInputSubmit (message : String) : Option String × String :=
  if jsTrimStr message = "" then (none, message)
  else (some (jsTrimStr message), "")

/-- Disabled attribute of the send button: `!message.trim() || disabled`. -/
def buttonDisabled (disabled : Bool) (message : String) : Bool :=
  (jsTrimStr message == "") || disabled

/-- Clicking the submit button: a disabled button fires no click/submit
event (DOM semantics of the `disabled` attribute, which the component
relies on). -/
def chatSubmitViaClick (disabled : Bool) (message : String) : Option String × String :=
  if buttonDisabled disabled message then (none, message)
  else chatInputSubmit message

/-- Key press in the textarea: a disabled textarea receives no keyboard
events (DOM semantics); otherwise Enter-without-Shift submits
(ChatInput.handleKeyDown). -/
def chatSubmitViaKey (disabled : Bool) (key : String) (shiftKey : Bool)
    (message : String) : Option String × String :=
  if disabled then (none, message)
  else if key == "Enter" && !shiftKey then chatInputSubmit message
  else (none, message)

/-- The `query` field of the outbound AdditionalInfo request body: `none`
when validation fails and no request is issued; the raw (untrimmed) value
is sent (`gatherAdditionalInfo({ query })`). -/
def gatherRequestQuery (query : String) : Option String :=
  if jsTrimStr query = "" then none else some query

/-- Initial AdditionalInfo state. -/
def aiInit : AIState := { query := "", result := none, loading := false, error := none }

/-- Editing the query field (the input's onChange handler). -/
def setQueryAI (s : AIState) (q : String) : AIState := { s with query := q }

/-- AdditionalInfo state after one successful submission. -/
def aiAfterSuccess : AIState :=
  additionalInfoSubmit (setQueryAI aiInit "q")
    (.success (some { success := some true, query := some "q", info := some "hello", message := none }))

/-- Then the user blanks the query field and submits again: the early
validation path sets an error without clearing the stored result. -/
def aiAfterBlankResubmit : AIState :=
  additionalInfoSubmit (setQueryAI aiAfterSuccess "   ") (.success none)

/-- A network failure: the request was sent, no response arrived. -/
def networkErr : ErrInfo := { response := none, request := true, message := some "Network Error" }

/-- Opening-tag prefix `<search_rag` as matched case-insensitively. -/
def openSrag : List Char := '<' :: "search_rag".data

/-- Closing-tag prefix `</search_rag`. -/
def closeSrag : List Char := '<' :: '/' :: "search_rag".data

/-- Opening-tag prefix `<duckduckgo_search`. -/
def openDdg : List Char := '<' :: "duckduckgo_search".data

/-- Closing-tag prefix `</duckduckgo_search`. -/
def closeDdg : List Char := '<' :: '/' :: "duckduckgo_search".data

/-- Whether the text contains any tool-call tag markup: a case-insensitive
occurrence of an opening or closing `search_rag` or `duckduckgo_search`
tag prefix.  Every substring any of the three sanitization regexes can
strip begins with one of these four prefixes, so text without them has no
tag markup in the sense of the spec. -/
def hasTagMarkup (l : List Char) : Bool :=
  (findCiIndex openSrag l).isSome || (findCiIndex closeSrag l).isSome ||
  (findCiIndex openDdg l).isSome || (findCiIndex closeDdg l).isSome

theorem tryLengths_isSome (f : List Char → Option Nat) (l : List Char) (n : Nat)
    (h : ∃ j m, j ≤ n ∧ f (l.drop j) = some m) :
    (tryLengths f l n).isSome = true := by
  induction n with
  | zero =>
    obtain ⟨j, m, hj, hf⟩ := h
    have hj0 : j = 0 := Nat.le_zero.mp hj
    subst hj0
    simp only [List.drop_zero] at hf
    simp [tryLengths, hf]
  | succ n ih =>
    simp only [tryLengths]
    cases hc : f (l.drop (n + 1)) with
    | some m => simp
    | none =>
      apply ih
      obtain ⟨j, m, hj, hf⟩ := h
      refine ⟨j, m, ?_, hf⟩
      rcases Nat.lt_or_ge j (n + 1) with hlt | hge
      · omega
      · exfalso
        have : j = n + 1 := by omega
        subst this
        rw [hf] at hc
        cases hc

theorem tryLengths_some_inv (f : List Char → Option Nat) (l : List Char) :
    ∀ (n r : Nat), tryLengths f l n = some r →
      ∃ j m, j ≤ n ∧ f (l.drop j) = some m ∧ r = j + m := by
  intro n
  induction n with
  | zero =>
    intro r h
    simp only [tryLengths] at h
    exact ⟨0, r, Nat.le_refl 0, by simpa using h, by omega⟩
  | succ n ih =>
    intro r h
    simp only [tryLengths] at h
    cases hc : f (l.drop (n + 1)) with
    | some m =>
      rw [hc] at h
      simp at h
      exact ⟨n + 1, m, Nat.le_refl _, hc, by omega⟩
    | none =>
      rw [hc] at h
      simp at h
      obtain ⟨j, m, hj, hf, hr⟩ := ih r h
      exact ⟨j, m, Nat.le_succ_of_le hj, hf, hr⟩

theorem countLeading_drop_head (p : Char → Bool) :
    ∀ (l : List Char) (c : Char),
      (l.drop (countLeading p l)).head? = some c → p c = false := by
  intro l
  induction l with
  | nil => intro c h; simp at h
  | cons x xs ih =>
    intro c h
    by_cases hx : p x
    · rw [countLeading, if_pos hx] at h
      simp only [List.drop_succ_cons] at h
      exact ih c h
    · rw [countLeading, if_neg hx] at h
      simp only [List.drop_zero, List.head?_cons] at h
      obtain rfl : x = c := by simpa using h
      simpa using hx

theorem nlPlus_eq (l : List Char) (k : Nat) (h : nlPlus l = some k) :
    k = countLeading (fun c => c == '\n') l ∧ 1 ≤ k := by
  unfold nlPlus at h
  cases hc : countLeading (fun c => c == '\n') l with
  | zero => rw [hc] at h; cases h
  | succ k2 =>
    rw [hc] at h
    simp at h
    omega

theorem nlPlus_cons_nl (u : List Char) :
    nlPlus ('\n' :: u) = some (countLeading (fun c => c == '\n') u + 1) := by
  simp [nlPlus, countLeading]

theorem nlPlus_end (l : List Char) (k : Nat) (h : nlPlus l = some k) :
    (l.drop k).head? ≠ some '\n' := by
  obtain ⟨hk, -⟩ := nlPlus_eq l k h
  subst hk
  intro hc
  have := countLeading_drop_head (fun c => c == '\n') l '\n' hc
  simp at this

theorem tryLengths_end (f : List Char → Option Nat)
    (hf : ∀ (u : List Char) (m : Nat), f u = some m → (u.drop m).head? ≠ some '\n')
    (l : List Char) (n r : Nat) (h : tryLengths f l n = some r) :
    (l.drop r).head? ≠ some '\n' := by
  obtain ⟨j, m, hj, hfj, rfl⟩ := tryLengths_some_inv f l n r h
  have := hf (l.drop j) m hfj
  rw [List.drop_drop] at this
  exact this

theorem partC_end (l : List Char) (r : Nat) (h : partC l = some r) :
    (l.drop r).head? ≠ some '\n' :=
  tryLengths_end nlPlus nlPlus_end l _ r h

theorem partB_end (l : List Char) (r : Nat) (h : partB l = some r) :
    (l.drop r).head? ≠ some '\n' := by
  cases l with
  | nil => cases h
  | cons c rest =>
    simp only [partB] at h
    by_cases hc : c = '\n'
    · rw [if_pos hc] at h
      cases hpc : partC rest with
      | none => rw [hpc] at h; cases h
      | some m =>
        rw [hpc] at h
        simp at h
        subst h
        simp only [List.drop_succ_cons]
        exact partC_end rest m hpc
    · rw [if_neg hc] at h; cases h

theorem partA_end (l : List Char) (r : Nat) (h : partA l = some r) :
    (l.drop r).head? ≠ some '\n' :=
  tryLengths_end partB partB_end l _ r h

theorem matchBlank_end (l : List Char) (r : Nat) (h : matchBlank l = some r) :
    (l.drop r).head? ≠ some '\n' := by
  cases l with
  | nil => cases h
  | cons c rest =>
    simp only [matchBlank] at h
    by_cases hc : c = '\n'
    · rw [if_pos hc] at h
      cases hpa : partA rest with
      | none => rw [hpa] at h; cases h
      | some m =>
        rw [hpa] at h
        simp at h
        subst h
        simp only [List.drop_succ_cons]
        exact partA_end rest m hpa
    · rw [if_neg hc] at h; cases h

theorem matchBlank_head (l : List Char) (k : Nat) (h : matchBlank l = some k) :
    l.head? = some '\n' := by
  cases l with
  | nil => cases h
  | cons c rest =>
    simp only [matchBlank] at h
    by_cases hc : c = '\n'
    · simp [hc]
    · rw [if_neg hc] at h; cases h

theorem matchBlank_pos (l : List Char) (k : Nat) (h : matchBlank l = some k) :
    1 ≤ k := by
  cases l with
  | nil => cases h
  | cons c rest =>
    simp only [matchBlank] at h
    by_cases hc : c = '\n'
    · rw [if_pos hc] at h
      cases hp : partA rest with
      | none => rw [hp] at h; cases h
      | some m => rw [hp] at h; simp at h; omega
    · rw [if_neg hc] at h; cases h

theorem matchBlank_cons3 (xs : List Char) :
    (matchBlank ('\n' :: '\n' :: '\n' :: xs)).isSome = true := by
  have h2 : (partC ('\n' :: xs)).isSome = true := by
    unfold partC spacesStarThen
    exact tryLengths_isSome nlPlus ('\n' :: xs) _
      ⟨0, _, Nat.zero_le _, by simpa using nlPlus_cons_nl xs⟩
  obtain ⟨mc, hmc⟩ := Option.isSome_iff_exists.mp h2
  have h3 : partB ('\n' :: '\n' :: xs) = some (mc + 1) := by
    simp only [partB, if_pos rfl, hmc]
    rfl
  have h4 : (partA ('\n' :: '\n' :: xs)).isSome = true := by
    unfold partA spacesStarThen
    exact tryLengths_isSome partB _ _ ⟨0, mc + 1, Nat.zero_le _, by simpa using h3⟩
  obtain ⟨ma, hma⟩ := Option.isSome_iff_exists.mp h4
  simp only [matchBlank, if_pos rfl, hma]
  rfl

theorem matchBlank_cons_of (cs : List Char) (k : Nat) (h : matchBlank cs = some k) :
    (matchBlank ('\n' :: cs)).isSome = true := by
  cases cs with
  | nil => cases h
  | cons c rest =>
    simp only [matchBlank] at h
    by_cases hc : c = '\n'
    · subst hc
      rw [if_pos rfl] at h
      cases hp : partA rest with
      | none => rw [hp] at h; cases h
      | some m =>
        have hp' : tryLengths partB rest (countLeading isJSSpace rest) = some m := hp
        obtain ⟨j, m2, hj, hfj, -⟩ := tryLengths_some_inv partB rest _ m hp'
        cases hdj : rest.drop j with
        | nil => rw [hdj] at hfj; cases hfj
        | cons d u =>
          rw [hdj] at hfj
          simp only [partB] at hfj
          by_cases hd : d = '\n'
          · subst hd
            have hCrest : (partC rest).isSome = true := by
              unfold partC spacesStarThen
              exact tryLengths_isSome nlPlus rest _
                ⟨j, _, hj, by rw [hdj]; exact nlPlus_cons_nl u⟩
            obtain ⟨mc, hmc⟩ := Option.isSome_iff_exists.mp hCrest
            have hBrest : partB ('\n' :: rest) = some (mc + 1) := by
              simp only [partB, if_pos rfl, hmc]
              rfl
            have hA : (partA ('\n' :: rest)).isSome = true := by
              unfold partA spacesStarThen
              exact tryLengths_isSome partB _ _
                ⟨0, mc + 1, Nat.zero_le _, by simpa using hBrest⟩
            obtain ⟨ma, hma⟩ := Option.isSome_iff_exists.mp hA
            simp only [matchBlank, if_pos rfl, hma]
            rfl
          · rw [if_neg hd] at hfj; cases hfj
    · rw [if_neg hc] at h; cases h

theorem collapseGo_head (fuel : Nat) (l : List Char)
    (h : (collapseGo fuel l).head? = some '\n') : l.head? = some '\n' := by
  cases fuel with
  | zero => simpa [collapseGo] using h
  | succ f =>
    cases l with
    | nil => simp [collapseGo] at h
    | cons c cs =>
      cases hm : matchBlank (c :: cs) with
      | some k => exact matchBlank_head _ _ hm
      | none =>
        simp only [collapseGo, hm] at h
        simpa using h

theorem collapseGo_not_double_nl (fuel : Nat) (cs : List Char)
    (hlen : cs.length ≤ fuel) (hm : matchBlank ('\n' :: cs) = none) :
    ∀ t, collapseGo fuel cs ≠ '\n' :: '\n' :: t := by
  intro t het
  cases cs with
  | nil => cases fuel <;> simp [collapseGo] at het
  | cons d cs2 =>
    cases fuel with
    | zero => simp at hlen
    | succ f =>
      cases hm2 : matchBlank (d :: cs2) with
      | some k =>
        have hsome := matchBlank_cons_of (d :: cs2) k hm2
        rw [hm] at hsome
        cases hsome
      | none =>
        simp only [collapseGo, hm2] at het
        injection het with hd hrest
        have hh : (collapseGo f cs2).head? = some '\n' := by rw [hrest]; rfl
        have hcs2 : cs2.head? = some '\n' := collapseGo_head f cs2 hh
        cases cs2 with
        | nil => cases hcs2
        | cons e cs3 =>
          have he : e = '\n' := by simpa using hcs2
          subst hd
          subst he
          have h3 := matchBlank_cons3 cs3
          rw [hm] at h3
          cases h3

theorem hasTripleNL_cons_of_ne (c : Char) (l : List Char)
    (hc : c ≠ '\n') (hl : hasTripleNL l = false) :
    hasTripleNL (c :: l) = false := by
  cases l with
  | nil => simp [hasTripleNL]
  | cons b l2 =>
    cases l2 with
    | nil => simp [hasTripleNL]
    | cons d l3 => simp [hasTripleNL, hc, hl]

theorem hasTripleNL_two_nl (l : List Char)
    (hl : hasTripleNL l = false) (hh : l.head? ≠ some '\n') :
    hasTripleNL ('\n' :: '\n' :: l) = false := by
  cases l with
  | nil => simp [hasTripleNL]
  | cons b l2 =>
    have hb : b ≠ '\n' := by
      intro hbe
      exact hh (by rw [hbe]; rfl)
    cases l2 with
    | nil => simp [hasTripleNL, hb]
    | cons d l3 => simp [hasTripleNL, hb, hl]

theorem hasTripleNL_one_nl (l : List Char)
    (hl : hasTripleNL l = false) (hnd : ∀ t, l ≠ '\n' :: '\n' :: t) :
    hasTripleNL ('\n' :: l) = false := by
  cases l with
  | nil => simp [hasTripleNL]
  | cons b l2 =>
    cases l2 with
    | nil => simp [hasTripleNL]
    | cons d l3 =>
      by_cases hb : b = '\n'
      · by_cases hd : d = '\n'
        · exact absurd (by rw [hb, hd]) (hnd l3)
        · subst hb
          simp [hasTripleNL, hd, hl]
      · simp [hasTripleNL, hb, hl]

theorem collapseGo_noTriple : ∀ (fuel : Nat) (l : List Char), l.length ≤ fuel →
    hasTripleNL (collapseGo fuel l) = false := by
  intro fuel
  induction fuel with
  | zero =>
    intro l hl
    have : l = [] := List.length_eq_zero.mp (Nat.le_zero.mp hl)
    subst this
    simp [collapseGo, hasTripleNL]
  | succ f ih =>
    intro l hl
    cases l with
    | nil => simp [collapseGo, hasTripleNL]
    | cons c cs =>
      cases hm : matchBlank (c :: cs) with
      | some k =>
        have hk := matchBlank_pos _ _ hm
        have hrest : ((c :: cs).drop k).length ≤ f := by
          rw [List.length_drop]
          simp only [List.length_cons] at hl ⊢
          omega
        have hR := ih _ hrest
        have hend := matchBlank_end _ _ hm
        have hRhead : (collapseGo f ((c :: cs).drop k)).head? ≠ some '\n' :=
          fun hcontra => hend (collapseGo_head _ _ hcontra)
        simp only [collapseGo, hm]
        exact hasTripleNL_two_nl _ hR hRhead
      | none =>
        have hcs : cs.length ≤ f := by
          simp only [List.length_cons] at hl
          omega
        have hR := ih cs hcs
        simp only [collapseGo, hm]
        by_cases hc : c = '\n'
        · subst hc
          exact hasTripleNL_one_nl _ hR (collapseGo_not_double_nl f cs hcs hm)
        · exact hasTripleNL_cons_of_ne c _ hc hR

theorem hasTripleNL_iff (l : List Char) :
    hasTripleNL l = true ↔ ∃ a b, l = a ++ '\n' :: '\n' :: '\n' :: b := by
  induction l with
  | nil =>
    constructor
    · intro h; simp [hasTripleNL] at h
    · rintro ⟨a, b, h⟩
      exfalso
      have := congrArg List.length h
      simp at this
      omega
  | cons x xs ih =>
    cases xs with
    | nil =>
      constructor
      · intro h; simp [hasTripleNL] at h
      · rintro ⟨a, b, h⟩
        exfalso
        have := congrArg List.length h
        simp at this
        omega
    | cons y ys =>
      cases ys with
      | nil =>
        constructor
        · intro h; simp [hasTripleNL] at h
        · rintro ⟨a, b, h⟩
          exfalso
          have := congrArg List.length h
          simp at this
          omega
      | cons z zs =>
        constructor
        · intro h
          simp only [hasTripleNL, Bool.or_eq_true, Bool.and_eq_true, beq_iff_eq] at h
          rcases h with ⟨⟨hx, hy⟩, hz⟩ | h2
          · exact ⟨[], zs, by rw [hx, hy, hz]; rfl⟩
          · obtain ⟨a, b, hab⟩ := ih.mp h2
            exact ⟨x :: a, b, by rw [List.cons_append, hab]⟩
        · rintro ⟨a, b, hab⟩
          cases a with
          | nil =>
            simp only [List.nil_append] at hab
            injection hab with hx hrest
            injection hrest with hy hrest2
            injection hrest2 with hz hrest3
            simp [hasTripleNL, hx, hy, hz]
          | cons a0 as =>
            simp only [List.cons_append] at hab
            injection hab with hx hrest
            have h2 : hasTripleNL (y :: z :: zs) = true := ih.mpr ⟨as, b, hrest⟩
            simp [hasTripleNL, h2]

theorem hasTripleNL_append_right (a b : List Char)
    (h : hasTripleNL b = true) : hasTripleNL (a ++ b) = true := by
  obtain ⟨x, y, hxy⟩ := (hasTripleNL_iff b).mp h
  exact (hasTripleNL_iff (a ++ b)).mpr ⟨a ++ x, y, by rw [hxy, List.append_assoc]⟩

theorem hasTripleNL_of_dropWhile (p : Char → Bool) (l : List Char)
    (h : hasTripleNL (l.dropWhile p) = true) : hasTripleNL l = true := by
  have := hasTripleNL_append_right (l.takeWhile p) (l.dropWhile p) h
  rwa [List.takeWhile_append_dropWhile] at this

theorem hasTripleNL_of_reverse (l : List Char)
    (h : hasTripleNL l.reverse = true) : hasTripleNL l = true := by
  obtain ⟨a, b, hab⟩ := (hasTripleNL_iff l.reverse).mp h
  apply (hasTripleNL_iff l).mpr
  refine ⟨b.reverse, a.reverse, ?_⟩
  have hl : l = l.reverse.reverse := (List.reverse_reverse l).symm
  rw [hl, hab]
  have : ('\n' :: '\n' :: '\n' :: b : List Char) = ['\n', '\n', '\n'] ++ b := rfl
  rw [this, List.reverse_append, List.reverse_append]
  simp

theorem hasTripleNL_jsTrim (l : List Char) (h : hasTripleNL l = false) :
    hasTripleNL (jsTrim l) = false := by
  by_contra hc
  rw [Bool.not_eq_false] at hc
  unfold jsTrim at hc
  have h1 := hasTripleNL_of_reverse _ hc
  have h2 := hasTripleNL_of_dropWhile _ _ h1
  have h3 := hasTripleNL_of_reverse _ h2
  have h4 := hasTripleNL_of_dropWhile _ _ h3
  rw [h] at h4
  cases h4

theorem standaloneMatchLen_none (c : Char) (cs : List Char) (hc : c ≠ '<') :
    standaloneMatchLen (c :: cs) = none := by
  simp only [standaloneMatchLen]
  rw [if_neg hc]

theorem findCiIndex_none_cons (pat : List Char) (c : Char) (cs : List Char)
    (h : findCiIndex pat (c :: cs) = none) :
    ciStartsWith pat (c :: cs) = false ∧ findCiIndex pat cs = none := by
  simp only [findCiIndex] at h
  cases hq : ciStartsWith pat (c :: cs) with
  | true => rw [hq] at h; simp at h
  | false =>
    rw [hq] at h
    simp at h
    exact ⟨rfl, h⟩

theorem ciStartsWith_of_append (p1 p2 l : List Char)
    (h : ciStartsWith (p1 ++ p2) l = true) : ciStartsWith p1 l = true := by
  induction p1 generalizing l with
  | nil => rfl
  | cons a as ih =>
    cases l with
    | nil => cases h
    | cons c cs =>
      simp only [List.cons_append, ciStartsWith, Bool.and_eq_true] at h ⊢
      exact ⟨h.1, ih cs h.2⟩

theorem ciStartsWith_cons_false (p0 : Char) (ps : List Char) (c : Char) (cs : List Char)
    (h : ciEq p0 c = false) : ciStartsWith (p0 :: ps) (c :: cs) = false := by
  simp [ciStartsWith, h]

theorem removePairedGo_id_no_open (tag close : List Char) :
    ∀ (fuel : Nat) (l : List Char), findCiIndex ('<' :: tag) l = none →
      removePairedGo ('<' :: tag ++ ['>']) close fuel l = l := by
  intro fuel
  induction fuel with
  | zero => intro l _; rfl
  | succ f ih =>
    intro l h
    cases l with
    | nil => rfl
    | cons c cs =>
      obtain ⟨hs, hcs⟩ := findCiIndex_none_cons _ _ _ h
      have hso : ciStartsWith ('<' :: tag ++ ['>']) (c :: cs) = false := by
        cases hq : ciStartsWith ('<' :: tag ++ ['>']) (c :: cs) with
        | false => rfl
        | true =>
          have hq' : ciStartsWith (('<' :: tag) ++ ['>']) (c :: cs) = true := by
            rw [List.cons_append]
            exact hq
          have := ciStartsWith_of_append ('<' :: tag) ['>'] (c :: cs) hq'
          rw [this] at hs
          cases hs
      simp only [removePairedGo]
      rw [hso]
      show c :: removePairedGo ('<' :: tag ++ ['>']) close f cs = c :: cs
      exact congrArg (List.cons c) (ih cs hcs)

theorem standaloneMatchLen_none_of (c : Char) (cs : List Char)
    (h1 : ciStartsWith openSrag (c :: cs) = false)
    (h2 : ciStartsWith closeSrag (c :: cs) = false)
    (h3 : ciStartsWith openDdg (c :: cs) = false)
    (h4 : ciStartsWith closeDdg (c :: cs) = false) :
    standaloneMatchLen (c :: cs) = none := by
  by_cases hc : c = '<'
  · subst hc
    have hnameS : ciStartsWith ("search_rag".data) cs = false := by
      cases hq : ciStartsWith ("search_rag".data) cs with
      | false => rfl
      | true =>
        exfalso
        have : ciStartsWith openSrag ('<' :: cs) = true := by
          unfold openSrag
          simp [ciStartsWith, hq]
          decide
        rw [this] at h1
        cases h1
    have hnameD : ciStartsWith ("duckduckgo_search".data) cs = false := by
      cases hq : ciStartsWith ("duckduckgo_search".data) cs with
      | false => rfl
      | true =>
        exfalso
        have : ciStartsWith openDdg ('<' :: cs) = true := by
          unfold openDdg
          simp [ciStartsWith, hq]
          decide
        rw [this] at h3
        cases h3
    have hAfter0 : standaloneAfter 0 cs = none := by
      simp [standaloneAfter, nameAltLen, hnameS, hnameD]
    simp only [standaloneMatchLen, if_pos rfl]
    by_cases hsl : cs.head? = some '/'
    · rw [if_pos hsl]
      cases cs with
      | nil => cases hsl
      | cons d r2 =>
        have hd : d = '/' := by simpa using hsl
        subst hd
        have hnameS2 : ciStartsWith ("search_rag".data) r2 = false := by
          cases hq : ciStartsWith ("search_rag".data) r2 with
          | false => rfl
          | true =>
            exfalso
            have : ciStartsWith closeSrag ('<' :: '/' :: r2) = true := by
              unfold closeSrag
              simp [ciStartsWith, hq]
              decide
            rw [this] at h2
            cases h2
        have hnameD2 : ciStartsWith ("duckduckgo_search".data) r2 = false := by
          cases hq : ciStartsWith ("duckduckgo_search".data) r2 with
          | false => rfl
          | true =>
            exfalso
            have : ciStartsWith closeDdg ('<' :: '/' :: r2) = true := by
              unfold closeDdg
              simp [ciStartsWith, hq]
              decide
            rw [this] at h4
            cases h4
        have hAfter1 : standaloneAfter 1 r2 = none := by
          simp [standaloneAfter, nameAltLen, hnameS2, hnameD2]
        simp only [List.tail_cons, hAfter1]
        exact hAfter0
    · rw [if_neg hsl]
      exact hAfter0
  · exact standaloneMatchLen_none c cs hc

theorem removeStandaloneGo_id_no_tag :
    ∀ (fuel : Nat) (l : List Char),
      findCiIndex openSrag l = none → findCiIndex closeSrag l = none →
      findCiIndex openDdg l = none → findCiIndex closeDdg l = none →
      removeStandaloneGo fuel l = l := by
  intro fuel
  induction fuel with
  | zero => intro l _ _ _ _; rfl
  | succ f ih =>
    intro l h1 h2 h3 h4
    cases l with
    | nil => rfl
    | cons c cs =>
      obtain ⟨hs1, hc1⟩ := findCiIndex_none_cons _ _ _ h1
      obtain ⟨hs2, hc2⟩ := findCiIndex_none_cons _ _ _ h2
      obtain ⟨hs3, hc3⟩ := findCiIndex_none_cons _ _ _ h3
      obtain ⟨hs4, hc4⟩ := findCiIndex_none_cons _ _ _ h4
      have hm : standaloneMatchLen (c :: cs) = none :=
        standaloneMatchLen_none_of c cs hs1 hs2 hs3 hs4
      simp [removeStandaloneGo, hm, ih cs hc1 hc2 hc3 hc4]

theorem hasTagMarkup_split (l : List Char) (h : hasTagMarkup l = false) :
    findCiIndex openSrag l = none ∧ findCiIndex closeSrag l = none ∧
    findCiIndex openDdg l = none ∧ findCiIndex closeDdg l = none := by
  unfold hasTagMarkup at h
  refine ⟨?_, ?_, ?_, ?_⟩
  · cases hx : findCiIndex openSrag l with
    | none => rfl
    | some v => rw [hx] at h; simp at h
  · cases hx : findCiIndex closeSrag l with
    | none => rfl
    | some v => rw [hx] at h; simp at h
  · cases hx : findCiIndex openDdg l with
    | none => rfl
    | some v => rw [hx] at h; simp at h
  · cases hx : findCiIndex closeDdg l with
    | none => rfl
    | some v => rw [hx] at h; simp at h

theorem cleanResponse_no_markup (t : String) (h : hasTagMarkup t.data = false) :
    cleanResponse t = String.mk (jsTrim (collapseBlank t.data)) := by
  obtain ⟨e1, e2, e3, e4⟩ := hasTagMarkup_split t.data h
  by_cases ht : t = ""
  · subst ht
    decide
  · simp only [cleanResponse, if_neg ht]
    have r1 : removePaired ("search_rag".data) t.data = t.data := by
      unfold removePaired
      exact removePairedGo_id_no_open _ _ _ _ e1
    have r2 : removePaired ("duckduckgo_search".data) t.data = t.data := by
      unfold removePaired
      exact removePairedGo_id_no_open _ _ _ _ e3
    have r3 : removeStandalone t.data = t.data := by
      unfold removeStandalone
      exact removeStandaloneGo_id_no_tag _ _ e1 e2 e3 e4
    rw [r1, r2, r3]

theorem cleanResponse_noTriple_list (t : String) :
    hasTripleNL (cleanResponse t).data = false := by
  by_cases ht : t = ""
  · subst ht
    decide
  · simp only [cleanResponse, if_neg ht]
    show hasTripleNL (jsTrim (collapseBlank (removeStandalone
      (removePaired ("duckduckgo_search".data)
        (removePaired ("search_rag".data) t.data))))) = false
    apply hasTripleNL_jsTrim
    unfold collapseBlank
    exact collapseGo_noTriple _ _ (Nat.le_refl _)

/-- Claim C1: `cleanResponse` removes paired `search_rag` and
`duckduckgo_search` tag spans (case-insensitive, multiline, non-greedy),
then standalone tags, then collapses blank-line runs, then trims; in
particular `"before<search_rag>anything here\nmultiline</search_rag>after"`
sanitizes to exactly `"beforeafter"`. -/
theorem claim_C1 :
    cleanResponse "before<search_rag>anything here\nmultiline</search_rag>after" = "beforeafter" ∧
    ∀ t : String, cleanResponse t =
      if t = "" then t
      else String.mk (jsTrim (collapseBlank (removeStandalone
        (removePaired ("duckduckgo_search".data)
          (removePaired ("search_rag".data) t.data))))) :=
  ⟨by decide, fun _ => rfl⟩

/-- Claim C2: in AdditionalInfo's submit handler, a response whose `info`
field is the empty string is treated exactly like a response lacking
`info`: both hit the "empty response" error path and no result is stored. -/
theorem claim_C2 :
    (∀ d : GatherResult,
      processGatherResponse (some { d with info := some "" }) = .err emptyResponseMsg ∧
      processGatherResponse (some { d with info := none }) = .err emptyResponseMsg) ∧
    processGatherResponse
        (some { success := some true, query := some "q", info := some "", message := none }) =
      .err emptyResponseMsg :=
  ⟨fun _ => ⟨rfl, rfl⟩, rfl⟩

/-- Claim C3, counterexample: the claim says a network failure with no
server response produces the verbatim no-response message in either
component, but FinalResponse's error chain has no `err.request` branch and
yields the error's own message instead. -/
theorem claim_C3_counterexample :
    additionalInfoErrorMessage networkErr = noResponseMsg ∧
    finalResponseErrorMessage networkErr = "Network Error" ∧
    finalResponseErrorMessage networkErr ≠ noResponseMsg := by
  refine ⟨by decide, by decide, by decide⟩

/-- Claim C3, amended: only AdditionalInfo has the full fallback chain
with the no-response branch; FinalResponse falls back from `detail`
directly to the error's own message and then to its generic default, so a
network failure yields the verbatim no-response message in AdditionalInfo
but not in FinalResponse. -/
theorem claim_C3_amended (err : ErrInfo) (hresp : err.response = none)
    (hreq : err.request = true) :
    additionalInfoErrorMessage err = noResponseMsg ∧
    finalResponseErrorMessage err = jsOrStr err.message "Failed to generate response" := by
  constructor
  · unfold additionalInfoErrorMessage
    rw [hresp]
    simp [hreq]
  · unfold finalResponseErrorMessage
    rw [hresp]
    rfl

/-- Claim C3, witness for the amended theorem at a concrete network error. -/
theorem claim_C3_witness :
    networkErr.response = none ∧ networkErr.request = true ∧
    additionalInfoErrorMessage networkErr = noResponseMsg ∧
    finalResponseErrorMessage networkErr = jsOrStr networkErr.message "Failed to generate response" :=
  ⟨rfl, rfl, (claim_C3_amended networkErr rfl rfl).1, (claim_C3_amended networkErr rfl rfl).2⟩

/-- Claim C4: a ChatInput submission dispatches iff the trimmed text is
non-empty; it dispatches exactly the trimmed text and clears the field,
and an all-whitespace message dispatches nothing and leaves the field
unchanged. -/
theorem claim_C4 :
    (∀ m : String, jsTrimStr m = "" → chatInputSubmit m = (none, m)) ∧
    (∀ m : String, jsTrimStr m ≠ "" → chatInputSubmit m = (some (jsTrimStr m), "")) ∧
    chatInputSubmit "  hello  " = (some "hello", "") ∧
    chatInputSubmit "   " = (none, "   ") := by
  refine ⟨fun m hm => ?_, fun m hm => ?_, by decide, by decide⟩
  · simp [chatInputSubmit, hm]
  · simp [chatInputSubmit, hm]

/-- Claim C4, witness at a concrete non-blank message. -/
theorem claim_C4_witness :
    jsTrimStr " hi " ≠ "" ∧ chatInputSubmit " hi " = (some "hi", "") := by
  constructor
  · decide
  · have h := claim_C4.2.1 " hi " (by decide)
    rw [h]
    decide

/-- Claim C5: a validated FinalResponse submission omits the `user_query`
key entirely when the original-query field is the empty string, and sends
it verbatim when non-blank. -/
theorem claim_C5 (c q : String) (hc : jsTrimStr c ≠ "") :
    (q = "" → finalResponseRequest c q = some { content := c, user_query := none }) ∧
    (q ≠ "" → finalResponseRequest c q = some { content := c, user_query := some q }) := by
  constructor
  · intro hq
    simp [finalResponseRequest, hc, hq]
  · intro hq
    simp [finalResponseRequest, hc, hq]

/-- Claim C5, witness at concrete blank and non-blank queries. -/
theorem claim_C5_witness :
    jsTrimStr "info blob" ≠ "" ∧
    finalResponseRequest "info blob" "" = some { content := "info blob", user_query := none } ∧
    finalResponseRequest "info blob" "Vegas" = some { content := "info blob", user_query := some "Vegas" } :=
  ⟨by decide, (claim_C5 "info blob" "" (by decide)).1 rfl,
    (claim_C5 "info blob" "Vegas" (by decide)).2 (by decide)⟩

/-- Claim C6: on input containing no tag markup (no case-insensitive
occurrence of an opening or closing `search_rag` or `duckduckgo_search`
tag) sanitization is the identity up to blank-line collapsing and
trimming, and for every input the sanitized output never contains three
consecutive newlines (hence at most two survive wherever the input had
four or more). -/
theorem claim_C6 :
    (∀ t : String, hasTagMarkup t.data = false →
      cleanResponse t = String.mk (jsTrim (collapseBlank t.data))) ∧
    (∀ t : String, hasTripleNL (cleanResponse t).data = false) :=
  ⟨cleanResponse_no_markup, cleanResponse_noTriple_list⟩

/-- Claim C6, witness on a concrete markup-free input that contains other
angle-bracket text plus five consecutive newlines. -/
theorem claim_C6_witness :
    hasTagMarkup ("see <b>bold</b>, 1 < 2\n\n\n\n\nend" : String).data = false ∧
    cleanResponse "see <b>bold</b>, 1 < 2\n\n\n\n\nend" =
      String.mk (jsTrim (collapseBlank ("see <b>bold</b>, 1 < 2\n\n\n\n\nend" : String).data)) ∧
    cleanResponse "see <b>bold</b>, 1 < 2\n\n\n\n\nend" = "see <b>bold</b>, 1 < 2\n\nend" :=
  ⟨by decide, claim_C6.1 "see <b>bold</b>, 1 < 2\n\n\n\n\nend" (by decide), by decide⟩

/-- Claim C7: while the disabled flag is true, neither a click on the
submit button nor Enter-without-Shift in the textarea dispatches anything
or changes the field, whatever the message text. -/
theorem claim_C7 :
    ∀ (m key : String) (shift : Bool),
      chatSubmitViaClick true m = (none, m) ∧
      chatSubmitViaKey true key shift m = (none, m) := by
  intro m key shift
  constructor
  · simp [chatSubmitViaClick, buttonDisabled]
  · simp [chatSubmitViaKey]

/-- Claim C8: every issued request clears the loading flag as a final step
on every completion path in HealthCheck, AdditionalInfo and FinalResponse. -/
theorem claim_C8 :
    (∀ (s : HCState) (o : ApiOutcome HealthData), (checkHealth s o).loading = false) ∧
    (∀ (s : AIState) (o : ApiOutcome GatherResult),
      jsTrimStr s.query ≠ "" → (additionalInfoSubmit s o).loading = false) ∧
    (∀ (s : FRState) (o : ApiOutcome FinalResult),
      jsTrimStr s.content ≠ "" → (finalResponseSubmitState s o).loading = false) := by
  refine ⟨fun s o => ?_, fun s o h => ?_, fun s o h => ?_⟩
  · cases o <;> rfl
  · cases o with
    | success data =>
      cases hpd : processGatherResponse data <;>
        simp [additionalInfoSubmit, if_neg h, hpd]
    | failure e => simp [additionalInfoSubmit, if_neg h]
  · cases o with
    | success data => simp [finalResponseSubmitState, if_neg h]
    | failure e => simp [finalResponseSubmitState, if_neg h]

/-- Claim C8, witness at concrete states and outcomes for all three
components. -/
theorem claim_C8_witness :
    jsTrimStr "q" ≠ "" ∧
    (additionalInfoSubmit { query := "q", result := none, loading := true, error := none }
      (.failure networkErr)).loading = false ∧
    (finalResponseSubmitState { content := "c", userQuery := "", result := none, loading := true, error := none }
      (.success none)).loading = false ∧
    (checkHealth { health := none, loading := true, error := none } (.success none)).loading = false :=
  ⟨by decide, claim_C8.2.1 _ _ (by decide), claim_C8.2.2 _ _ (by decide), claim_C8.1 _ _⟩

/-- Claim C9, counterexample: a reachable AdditionalInfo state violates
the states' mutual exclusivity — after a successful submission, blanking
the query and submitting again takes the early validation path, which sets
an error while the previous result is still stored. -/
theorem claim_C9_counterexample :
    aiAfterBlankResubmit.result.isSome = true ∧ aiAfterBlankResubmit.error.isSome = true := by
  decide

/-- Claim C9, amended: for submissions that pass validation, AdditionalInfo
and FinalResponse reset the previous result and error at the start of the
request (the settled state is independent of them) and never end with both
a stored result and an error; but a failed client-side validation keeps
the previous result alongside the new error, and HealthCheck retains the
previous health record alongside a later error. -/
theorem claim_C9_amended :
    (∀ (s : AIState) (o : ApiOutcome GatherResult), jsTrimStr s.query ≠ "" →
      additionalInfoSubmit s o = additionalInfoSubmit { s with result := none, error := none } o ∧
      ((additionalInfoSubmit s o).result.isSome && (additionalInfoSubmit s o).error.isSome) = false) ∧
    (∀ (s : FRState) (o : ApiOutcome FinalResult), jsTrimStr s.content ≠ "" →
      finalResponseSubmitState s o = finalResponseSubmitState { s with result := none, error := none } o ∧
      ((finalResponseSubmitState s o).result.isSome && (finalResponseSubmitState s o).error.isSome) = false) := by
  constructor
  · intro s o h
    constructor
    · simp only [additionalInfoSubmit, if_neg h]
    · cases o with
      | success data =>
        cases hpd : processGatherResponse data <;>
          simp [additionalInfoSubmit, if_neg h, hpd]
      | failure e => simp [additionalInfoSubmit, if_neg h]
  · intro s o h
    constructor
    · simp only [finalResponseSubmitState, if_neg h]
    · cases o with
      | success data => simp [finalResponseSubmitState, if_neg h]
      | failure e => simp [finalResponseSubmitState, if_neg h]

/-- Claim C9, witness for the amended theorem at a concrete state carrying
a stale error. -/
theorem claim_C9_witness :
    jsTrimStr "q" ≠ "" ∧
    ((additionalInfoSubmit { query := "q", result := none, loading := false, error := some "old" }
        (.failure networkErr)).result.isSome &&
      (additionalInfoSubmit { query := "q", result := none, loading := false, error := some "old" }
        (.failure networkErr)).error.isSome) = false :=
  ⟨by decide, (claim_C9_amended.1 _ _ (by decide)).2⟩

/-- Claim C10: validated submissions send the raw field value, not the
trimmed one used by validation — AdditionalInfo sends the query verbatim
and FinalResponse sends the content verbatim. -/
theorem claim_C10 :
    (∀ q : String, jsTrimStr q ≠ "" → gatherRequestQuery q = some q) ∧
    (∀ (c uq : String), jsTrimStr c ≠ "" →
      (finalResponseRequest c uq).map FinalPayload.content = some c) ∧
    gatherRequestQuery "  San Diego Zoo  " = some "  San Diego Zoo  " := by
  refine ⟨fun q hq => ?_, fun c uq hc => ?_, by decide⟩
  · simp [gatherRequestQuery, hq]
  · simp [finalResponseRequest, hc]

/-- Claim C10, witness at concrete whitespace-laden inputs. -/
theorem claim_C10_witness :
    jsTrimStr " raw query " ≠ "" ∧
    gatherRequestQuery " raw query " = some " raw query " ∧
    (finalResponseRequest " raw content " "uq").map FinalPayload.content = some " raw content " :=
  ⟨by decide, claim_C10.1 _ (by decide), claim_C10.2.1 _ "uq" (by decide)⟩
